import Mathlib

/-!
Verification of the program-adoption and workout-progress tracking subsystem
of the fitness backend.

The embedding models the two SQL tables touched by the tracker
(`user_programs` from app/models/user_program.py and `workout_logs` from
app/models/program.py) plus the `user_profiles` mirror columns, as lists of
rows, and the four route handlers that mutate or read them:

  - `start_program`       (app/api/routes/schedule.py, POST /start/:id)
  - `get_schedule_status` (app/api/routes/schedule.py, GET /status)
  - `log_workout`         (app/api/routes/schedule.py, POST /log)
  - `toggle_save_program` (app/api/routes/user_programs.py, POST /save/:id)

Conventions of the embedding:
  - UUIDs are opaque identifiers, modelled as `Nat`.
  - `DateTime` values are `Nat` microseconds since the epoch; the date
    portion of a timestamp is `calendarDay` (floor division by the number
    of microseconds in a day, matching Python datetime's microsecond
    resolution).  `datetime.combine(today, datetime.min.time())` is
    `startOfDay`, `datetime.combine(today, datetime.max.time())` is
    `endOfDay` (the last representable microsecond of the day).
  - Each operation receives the current clock value `now : Nat`
    (both `datetime.utcnow()` and `datetime.now()` / `date.today()` read
    the same wall clock) and, where it may insert a row, a fresh row id
    `newId : Nat` standing for the generated uuid4 primary key.
  - SQLAlchemy column defaults are applied at insert:
    `UserProgram.start_date` and `UserProgram.last_interaction_at` default
    to `utcnow`, and `last_interaction_at` has `onupdate=utcnow`, which
    fires on the bulk UPDATE in `start_program` step 2.
  - `scalar_one_or_none()` and `scalars().first()` are modelled as
    `List.find?` (the states these routes build never hold two rows for
    one `(user_id, program_id)` pair, so the first match is the match).
  - HTTP 404 is `Option.none`; response JSON is reduced to the data the
    claims mention (the boolean `is_saved` for the toggle route).
-/

/-- Microseconds in one calendar day (Python datetime has microsecond
resolution; `datetime.max.time()` is 23:59:59.999999). -/
def dayLen : Nat := 86400000000

/-- Date portion of a timestamp: `datetime.date()` / `date.today()`. -/
def calendarDay (t : Nat) : Nat := t / dayLen

/-- `datetime.combine(d, datetime.min.time())`: first instant of day `d`. -/
def startOfDay (d : Nat) : Nat := d * dayLen

/-- `datetime.combine(d, datetime.max.time())`: last representable instant
of day `d`. -/
def endOfDay (d : Nat) : Nat := d * dayLen + (dayLen - 1)

/-- `date.isoweekday()`: 1 = Monday .. 7 = Sunday.  Day 0 of the epoch
(1970-01-01) was a Thursday (= 4). -/
def isoWeekday (d : Nat) : Nat := (d + 3) % 7 + 1

/-- `ProgramStatus` enum from app/models/user_program.py. -/
inductive ProgramStatus where
  | started
  | saved
  | completed
deriving DecidableEq, Repr

/-- A row of the `user_programs` table (app/models/user_program.py). -/
structure UserProgram where
  id : Nat
  user_id : Nat
  program_id : Nat
  status : ProgramStatus
  is_active : Bool
  start_date : Option Nat
  last_interaction_at : Option Nat
deriving DecidableEq, Repr

/-- A row of the `workout_logs` table (app/models/program.py).
`day_number` is a Python `int`, hence `Int` here. -/
structure WorkoutLog where
  id : Nat
  user_id : Nat
  program_id : Nat
  day_number : Int
  completed_at : Nat
  duration_minutes : Option Int
  notes : Option String
deriving DecidableEq, Repr

/-- The mirror columns of `user_profiles` written by `start_program`
step 4 (`current_program_id`, `current_program_start_date`). -/
structure UserProfileRow where
  user_id : Nat
  current_program_id : Option Nat
  current_program_start_date : Option Nat
deriving DecidableEq, Repr

/-- The database state seen by the tracker: the program catalog (only the
existence of ids matters to these routes), the two tracker tables, and
the profile mirror. -/
structure DB where
  programs : List Nat
  user_programs : List UserProgram
  workout_logs : List WorkoutLog
  profiles : List UserProfileRow
deriving DecidableEq, Repr

/-- Request body of POST /log: pydantic schema `WorkoutLogCreate`
(app/schemas/program.py, lines 107-113).  The schema declares
`day_number: int` with no `Field` bound, so every integer validates. -/
structure WorkoutLogCreate where
  program_id : Nat
  day_number : Int
  duration_minutes : Option Int := none
  notes : Option String := none
  completed_at : Option Nat := none
deriving DecidableEq, Repr

/-- Mutate the first element satisfying `p` (an ORM update of the single
object returned by `scalar_one_or_none`). -/
def updateFirst (p : α → Bool) (f : α → α) : List α → List α
  | [] => []
  | a :: as => if p a then f a :: as else a :: updateFirst p f as

/-- Remove the first element satisfying `p` (`db.delete(obj)` on the
object returned by `scalar_one_or_none`). -/
def eraseFirst (p : α → Bool) : List α → List α
  | [] => []
  | a :: as => if p a then as else a :: eraseFirst p as

/-- Row filter `user_id == uid AND program_id == pid` on `user_programs`. -/
def UserProgram.forPair (uid pid : Nat) (up : UserProgram) : Bool :=
  up.user_id == uid && up.program_id == pid

/-- Row filter `user_id == uid AND is_active == True` on `user_programs`. -/
def UserProgram.activeFor (uid : Nat) (up : UserProgram) : Bool :=
  up.user_id == uid && up.is_active

/-- Row filter `user_id == uid AND program_id == pid` on `workout_logs`. -/
def WorkoutLog.forPair (uid pid : Nat) (wl : WorkoutLog) : Bool :=
  wl.user_id == uid && wl.program_id == pid

/-- The dedupe filter of POST /log and the `is_completed_today` filter of
GET /status: a `(uid, pid)` row whose `completed_at` lies between
`startOfDay d` and `endOfDay d` inclusive. -/
def WorkoutLog.onDay (uid pid d : Nat) (wl : WorkoutLog) : Bool :=
  wl.user_id == uid && wl.program_id == pid &&
    decide (startOfDay d ≤ wl.completed_at) &&
    decide (wl.completed_at ≤ endOfDay d)

/-- The ORM mutation of step 3 of `start_program` on an existing row:
`is_active = True; status = STARTED; last_interaction_at = utcnow();
if not start_date: start_date = utcnow()`. -/
def startActivate (now : Nat) (up : UserProgram) : UserProgram :=
  { up with
      is_active := true
      status := ProgramStatus.started
      last_interaction_at := some now
      start_date := if up.start_date.isNone then some now else up.start_date }

/-- The row inserted by step 3 of `start_program` when no enrollment
exists for the pair (`last_interaction_at` from the column default). -/
def startNewRow (uid pid now newId : Nat) : UserProgram :=
  { id := newId, user_id := uid, program_id := pid,
    status := ProgramStatus.started, is_active := true,
    start_date := some now, last_interaction_at := some now }

/-- `last_interaction_at = utcnow()` on an enrollment row. -/
def touchInteraction (now : Nat) (up : UserProgram) : UserProgram :=
  { up with last_interaction_at := some now }

/-- The enrollment side effect of the insert path of `log_workout`:
touch `last_interaction_at` and, if the status is `SAVED`, promote to
`STARTED`, set `is_active`, and set `start_date` if unset. -/
def logPromote (now : Nat) (up : UserProgram) : UserProgram :=
  if up.status == ProgramStatus.saved then
    { up with
        last_interaction_at := some now
        status := ProgramStatus.started
        is_active := true
        start_date := if up.start_date.isNone then some now else up.start_date }
  else touchInteraction now up

/-- The ORM mutation of the `Started`/`Completed` branch of
`toggle_save_program`: `status = SAVED; last_interaction_at = utcnow()`. -/
def markSaved (now : Nat) (up : UserProgram) : UserProgram :=
  { up with status := ProgramStatus.saved, last_interaction_at := some now }

/-- Step 2 of `start_program`: the bulk
`UPDATE user_programs SET is_active = false WHERE user_id = uid AND is_active`.
The `onupdate=utcnow` column default refreshes `last_interaction_at` on
every row the UPDATE touches. -/
def deactivateRow (uid now : Nat) (up : UserProgram) : UserProgram :=
  if up.user_id == uid && up.is_active then
    { up with is_active := false, last_interaction_at := some now }
  else up

/-- The bulk deactivation UPDATE applied to the whole table. -/
def deactivateAll (uid : Nat) (now : Nat) (l : List UserProgram) : List UserProgram :=
  l.map (deactivateRow uid now)

/-- POST /schedule/start/:program_id (`start_program`,
app/api/routes/schedule.py lines 21-90).  Returns `none` for the 404 when
the program id is not in the catalog; otherwise the committed state. -/
def start_program (uid pid now newId : Nat) (db : DB) : Option DB :=
  if db.programs.contains pid then
    let ups0 := deactivateAll uid now db.user_programs
    let ups1 :=
      if (ups0.find? (UserProgram.forPair uid pid)).isSome then
        updateFirst (UserProgram.forPair uid pid) (startActivate now) ups0
      else
        ups0 ++ [startNewRow uid pid now newId]
    let profs :=
      if (db.profiles.find? (fun p => p.user_id == uid)).isSome then
        updateFirst (fun p => p.user_id == uid)
          (fun p =>
            { p with
                current_program_id := some pid
                current_program_start_date := some (calendarDay now) })
          db.profiles
      else
        db.profiles ++ [{ user_id := uid, current_program_id := some pid,
                          current_program_start_date := some (calendarDay now) }]
    some { db with user_programs := ups1, profiles := profs }
  else
    none

/-- Shape of the GET /schedule/status response body. -/
structure ScheduleStatus where
  current_week : Nat
  current_day_of_week : Nat
  completed_workouts : Nat
  is_completed_today : Bool
  start_date : Option Nat
deriving DecidableEq, Repr

/-- GET /schedule/status (`get_schedule_status`,
app/api/routes/schedule.py lines 127-200).  A pure read: the handler
issues only SELECTs, so the embedding is a function of the state that
returns `none` (HTTP body `null`) when no enrollment is active. -/
def get_schedule_status (uid now : Nat) (db : DB) : Option ScheduleStatus :=
  match db.user_programs.find? (UserProgram.activeFor uid) with
  | none => none
  | some active_up =>
    let completed_workouts_count :=
      (db.workout_logs.filter (WorkoutLog.forPair uid active_up.program_id)).length
    let today := calendarDay now
    let todays_log :=
      db.workout_logs.find? (WorkoutLog.onDay uid active_up.program_id today)
    some { current_week := completed_workouts_count / 7 + 1,
           current_day_of_week := isoWeekday today,
           completed_workouts := completed_workouts_count,
           is_completed_today := todays_log.isSome,
           start_date := active_up.start_date }

/-- POST /schedule/log (`log_workout`, app/api/routes/schedule.py lines
203-291).  Returns the committed state together with the response row.
The dedupe window is built from `date.today()` — the server's current
date — not from the date of the supplied `completed_at`. -/
def log_workout (uid : Nat) (ld : WorkoutLogCreate) (now newId : Nat) (db : DB) :
    DB × WorkoutLog :=
  let today := calendarDay now
  match db.workout_logs.find? (WorkoutLog.onDay uid ld.program_id today) with
  | some existing_log =>
    let updated :=
      { existing_log with
          duration_minutes := ld.duration_minutes
          notes := ld.notes }
    let logs := updateFirst (WorkoutLog.onDay uid ld.program_id today)
      (fun wl => { wl with duration_minutes := ld.duration_minutes, notes := ld.notes })
      db.workout_logs
    let ups := db.user_programs.map fun up =>
      if UserProgram.forPair uid ld.program_id up then touchInteraction now up else up
    ({ db with workout_logs := logs, user_programs := ups }, updated)
  | none =>
    let log : WorkoutLog :=
      { id := newId, user_id := uid, program_id := ld.program_id,
        day_number := ld.day_number,
        completed_at := ld.completed_at.getD now,
        duration_minutes := ld.duration_minutes,
        notes := ld.notes }
    let ups :=
      if (db.user_programs.find? (UserProgram.forPair uid ld.program_id)).isSome then
        updateFirst (UserProgram.forPair uid ld.program_id) (logPromote now)
          db.user_programs
      else
        db.user_programs
    ({ db with workout_logs := db.workout_logs ++ [log], user_programs := ups }, log)

/-- POST /user-programs/save/:program_id (`toggle_save_program`,
app/api/routes/user_programs.py lines 58-106).  Returns the committed
state and the `is_saved` flag of the response.  A freshly created row
gets `start_date = now` and `last_interaction_at = now` from the column
defaults of the model. -/
def toggle_save_program (uid pid now newId : Nat) (db : DB) : DB × Bool :=
  match db.user_programs.find? (UserProgram.forPair uid pid) with
  | some user_program =>
    if user_program.status == ProgramStatus.saved then
      ({ db with user_programs := eraseFirst (UserProgram.forPair uid pid) db.user_programs },
       false)
    else
      let ups := updateFirst (UserProgram.forPair uid pid) (markSaved now) db.user_programs
      ({ db with user_programs := ups }, true)
  | none =>
    let row : UserProgram :=
      { id := newId, user_id := uid, program_id := pid,
        status := ProgramStatus.saved, is_active := false,
        start_date := some now, last_interaction_at := some now }
    ({ db with user_programs := db.user_programs ++ [row] }, true)

/-! ### Helper lemmas about the list-store primitives -/

theorem find?_map_eq (f : α → α) (p : α → Bool) (h : ∀ x, p (f x) = p x) :
    ∀ l : List α, (l.map f).find? p = (l.find? p).map f := by
  intro l
  induction l with
  | nil => rfl
  | cons a t ih =>
    rw [List.map_cons]
    by_cases hp : p a = true
    · rw [List.find?_cons_of_pos _ (by rw [h a]; exact hp), List.find?_cons_of_pos _ hp]
      rfl
    · rw [List.find?_cons_of_neg _ (by rw [h a]; exact hp), List.find?_cons_of_neg _ hp]
      exact ih

theorem length_updateFirst (p : α → Bool) (f : α → α) :
    ∀ l : List α, (updateFirst p f l).length = l.length := by
  intro l
  induction l with
  | nil => rfl
  | cons a t ih => by_cases hp : p a = true <;> simp [updateFirst, hp, ih]

theorem find?_updateFirst (p : α → Bool) (f : α → α) (h : ∀ x, p (f x) = p x) :
    ∀ l : List α, (updateFirst p f l).find? p = (l.find? p).map f := by
  intro l
  induction l with
  | nil => rfl
  | cons a t ih =>
    simp only [updateFirst]
    by_cases hp : p a = true
    · rw [if_pos hp, List.find?_cons_of_pos _ (by rw [h a]; exact hp),
          List.find?_cons_of_pos _ hp]
      rfl
    · rw [if_neg hp, List.find?_cons_of_neg _ hp, List.find?_cons_of_neg _ hp]
      exact ih

theorem map_updateFirst (p : α → Bool) (f : α → α) (g : α → β)
    (h : ∀ x, g (f x) = g x) :
    ∀ l : List α, (updateFirst p f l).map g = l.map g := by
  intro l
  induction l with
  | nil => rfl
  | cons a t ih => by_cases hp : p a = true <;> simp [updateFirst, hp, h a, ih]

theorem filter_updateFirst_of_found (p q : α → Bool) (f : α → α)
    (hq : ∀ x, p x = true → q (f x) = true) :
    ∀ (l : List α) (u : α), l.find? p = some u → l.filter q = [] →
      (updateFirst p f l).filter q = [f u] := by
  intro l
  induction l with
  | nil => intro u hu _; simp at hu
  | cons a t ih =>
    intro u hu hnil
    have hqa : q a = false := by
      by_cases hqa : q a = true
      · simp [List.filter_cons, hqa] at hnil
      · simpa using hqa
    have htnil : t.filter q = [] := by
      simpa [List.filter_cons, hqa] using hnil
    by_cases hp : p a = true
    · have hua : u = a := by
        rw [List.find?_cons_of_pos _ hp] at hu
        exact (Option.some_inj.mp hu).symm
      subst hua
      simp [updateFirst, hp, List.filter_cons, hq u hp, htnil]
    · have hu' : t.find? p = some u := by
        rwa [List.find?_cons_of_neg _ hp] at hu
      simp [updateFirst, hp, List.filter_cons, hqa, ih u hu' htnil]

theorem find?_append_none (p : α → Bool) :
    ∀ l₁ l₂ : List α, l₁.find? p = none → (l₁ ++ l₂).find? p = l₂.find? p := by
  intro l₁
  induction l₁ with
  | nil => intro l₂ _; rfl
  | cons a t ih =>
    intro l₂ h
    have hp : ¬ p a = true := by
      intro hp
      rw [List.find?_cons_of_pos _ hp] at h
      exact Option.noConfusion h
    rw [List.find?_cons_of_neg _ hp] at h
    rw [List.cons_append, List.find?_cons_of_neg _ hp]
    exact ih l₂ h

theorem find?_isSome_eq_any (p : α → Bool) :
    ∀ l : List α, (l.find? p).isSome = l.any p := by
  intro l
  induction l with
  | nil => rfl
  | cons a t ih =>
    by_cases hp : p a = true
    · simp [List.find?_cons_of_pos _ hp, hp]
    · rw [List.find?_cons_of_neg _ hp]
      have hp' : p a = false := by simpa using hp
      simp [hp', ih]

theorem mem_map_eraseFirst (p : α → Bool) (g : α → β) :
    ∀ l : List α, ∀ b ∈ l.map g, b ∈ (eraseFirst p l).map g ∨
      ∃ u, l.find? p = some u ∧ b = g u := by
  intro l
  induction l with
  | nil => intro b hb; simp at hb
  | cons a t ih =>
    intro b hb
    rcases (by simpa using hb : b = g a ∨ b ∈ t.map g) with hba | hbt
    · by_cases hp : p a = true
      · exact Or.inr ⟨a, List.find?_cons_of_pos _ hp, hba⟩
      · exact Or.inl (by simp [eraseFirst, hp, hba])
    · by_cases hp : p a = true
      · exact Or.inl (by simp [eraseFirst, hp, hbt])
      · rcases ih b hbt with h1 | ⟨u, hu, hgu⟩
        · exact Or.inl (by simp [eraseFirst, hp, Or.inr, h1])
        · exact Or.inr ⟨u, by rw [List.find?_cons_of_neg _ hp]; exact hu, hgu⟩

theorem filter_active_deactivateAll (uid now : Nat) :
    ∀ l : List UserProgram,
      (deactivateAll uid now l).filter (UserProgram.activeFor uid) = [] := by
  intro l
  induction l with
  | nil => rfl
  | cons a t ih =>
    by_cases hc : (a.user_id == uid && a.is_active) = true
    · have hstep : deactivateAll uid now (a :: t) =
          { a with is_active := false, last_interaction_at := some now } ::
            deactivateAll uid now t := by
        simp only [deactivateAll, List.map_cons, deactivateRow]
        rw [if_pos hc]
      rw [hstep, List.filter_cons]
      have hfalse : UserProgram.activeFor uid
          { a with is_active := false, last_interaction_at := some now } = false := by
        simp [UserProgram.activeFor]
      rw [hfalse]
      simpa using ih
    · have hstep : deactivateAll uid now (a :: t) = a :: deactivateAll uid now t := by
        simp only [deactivateAll, List.map_cons, deactivateRow]
        rw [if_neg hc]
      rw [hstep, List.filter_cons]
      have hfalse : UserProgram.activeFor uid a = false := by
        unfold UserProgram.activeFor
        simpa using hc
      rw [hfalse]
      simpa using ih

theorem day_range_iff (d t : Nat) :
    (startOfDay d ≤ t ∧ t ≤ endOfDay d) ↔ calendarDay t = d := by
  unfold startOfDay endOfDay calendarDay dayLen
  omega

theorem onDay_eq_pair_and_day (uid pid d : Nat) (wl : WorkoutLog) :
    WorkoutLog.onDay uid pid d wl =
      (WorkoutLog.forPair uid pid wl && (calendarDay wl.completed_at == d)) := by
  unfold WorkoutLog.onDay WorkoutLog.forPair
  rw [Bool.eq_iff_iff]
  simp only [Bool.and_eq_true, decide_eq_true_eq, beq_iff_eq]
  constructor
  · rintro ⟨⟨⟨h1, h2⟩, h3⟩, h4⟩
    exact ⟨⟨h1, h2⟩, (day_range_iff d wl.completed_at).mp ⟨h3, h4⟩⟩
  · rintro ⟨⟨h1, h2⟩, h3⟩
    have := (day_range_iff d wl.completed_at).mpr h3
    exact ⟨⟨⟨h1, h2⟩, this.1⟩, this.2⟩

/-! ### Row-update functions versus the row filters -/

theorem forPair_startActivate (uid pid now : Nat) (x : UserProgram) :
    UserProgram.forPair uid pid (startActivate now x) = UserProgram.forPair uid pid x := rfl

theorem forPair_markSaved (uid pid now : Nat) (x : UserProgram) :
    UserProgram.forPair uid pid (markSaved now x) = UserProgram.forPair uid pid x := rfl

theorem forPair_touchInteraction (uid pid now : Nat) (x : UserProgram) :
    UserProgram.forPair uid pid (touchInteraction now x) = UserProgram.forPair uid pid x := rfl

theorem forPair_logPromote (uid pid now : Nat) (x : UserProgram) :
    UserProgram.forPair uid pid (logPromote now x) = UserProgram.forPair uid pid x := by
  unfold logPromote touchInteraction UserProgram.forPair
  split <;> rfl

theorem forPair_deactivateRow (uid pid uidD now : Nat) (x : UserProgram) :
    UserProgram.forPair uid pid (deactivateRow uidD now x) = UserProgram.forPair uid pid x := by
  unfold deactivateRow UserProgram.forPair
  split <;> rfl

theorem id_startActivate (now : Nat) (x : UserProgram) :
    (startActivate now x).id = x.id := rfl

theorem id_markSaved (now : Nat) (x : UserProgram) :
    (markSaved now x).id = x.id := rfl

theorem id_logPromote (now : Nat) (x : UserProgram) :
    (logPromote now x).id = x.id := by
  unfold logPromote touchInteraction
  split <;> rfl

theorem id_deactivateRow (uid now : Nat) (x : UserProgram) :
    (deactivateRow uid now x).id = x.id := by
  unfold deactivateRow
  split <;> rfl

theorem start_date_deactivateRow (uid now : Nat) (x : UserProgram) :
    (deactivateRow uid now x).start_date = x.start_date := by
  unfold deactivateRow
  split <;> rfl

theorem find?_forPair_deactivateAll (uid pid uidD now : Nat) (l : List UserProgram) :
    (deactivateAll uidD now l).find? (UserProgram.forPair uid pid) =
      (l.find? (UserProgram.forPair uid pid)).map (deactivateRow uidD now) :=
  find?_map_eq _ _ (forPair_deactivateRow uid pid uidD now) l

/-- Case analysis of a successful `start_program` call: the committed
`user_programs` table either updates the first `(uid, pid)` row of the
deactivated table in place, or appends the freshly created row. -/
theorem start_program_user_programs (uid pid now newId : Nat) (db dbp : DB)
    (h : start_program uid pid now newId db = some dbp) :
    (∃ u, (deactivateAll uid now db.user_programs).find? (UserProgram.forPair uid pid) =
        some u ∧
      dbp.user_programs = updateFirst (UserProgram.forPair uid pid) (startActivate now)
        (deactivateAll uid now db.user_programs)) ∨
    ((deactivateAll uid now db.user_programs).find? (UserProgram.forPair uid pid) = none ∧
      dbp.user_programs = deactivateAll uid now db.user_programs ++
        [startNewRow uid pid now newId]) := by
  unfold start_program at h
  rcases Decidable.em (db.programs.contains pid = true) with hex | hex
  · rw [if_pos hex] at h
    simp only [] at h
    rcases hfind : (deactivateAll uid now db.user_programs).find? (UserProgram.forPair uid pid)
      with _ | u
    · rw [hfind] at h
      simp only [Option.isSome_none, Bool.false_eq_true, if_false] at h
      exact Or.inr ⟨rfl, (congrArg DB.user_programs (Option.some_inj.mp h)).symm⟩
    · rw [hfind] at h
      simp only [Option.isSome_some, if_true] at h
      exact Or.inl ⟨u, rfl, (congrArg DB.user_programs (Option.some_inj.mp h)).symm⟩
  · rw [if_neg hex] at h
    cases h

/-- C1: after any successful `start_program` call — no matter the prior
state, hence after each call of any sequence of successful calls —
exactly one `user_programs` row of the caller has `is_active = true`, and
that row is the row for the started `program_id`. -/
theorem startProgram_single_active (uid pid now newId : Nat) (db dbp : DB)
    (h : start_program uid pid now newId db = some dbp) :
    (dbp.user_programs.filter (UserProgram.activeFor uid)).length = 1 ∧
    (dbp.user_programs.filter (UserProgram.activeFor uid)).all
      (fun up => up.program_id == pid) = true := by
  rcases start_program_user_programs uid pid now newId db dbp h with
    ⟨u, hfind, hup⟩ | ⟨hfind, hup⟩
  · have hq : ∀ x, UserProgram.forPair uid pid x = true →
        UserProgram.activeFor uid (startActivate now x) = true := by
      intro x hx
      unfold UserProgram.forPair at hx
      simp only [Bool.and_eq_true, beq_iff_eq] at hx
      unfold UserProgram.activeFor startActivate
      simp [hx.1]
    have hfilter := filter_updateFirst_of_found (UserProgram.forPair uid pid)
      (UserProgram.activeFor uid) (startActivate now) hq
      (deactivateAll uid now db.user_programs) u hfind
      (filter_active_deactivateAll uid now db.user_programs)
    rw [hup, hfilter]
    have hpid : u.program_id == pid := by
      have := List.find?_some hfind
      unfold UserProgram.forPair at this
      exact (Bool.and_eq_true _ _ |>.mp this).2
    constructor
    · rfl
    · simp [startActivate, hpid]
  · rw [hup, List.filter_append, filter_active_deactivateAll uid now db.user_programs]
    have hact : UserProgram.activeFor uid (startNewRow uid pid now newId) = true := by
      unfold UserProgram.activeFor startNewRow
      simp
    rw [List.nil_append, List.filter_cons, if_pos hact]
    constructor
    · rfl
    · simp [startNewRow]

def dbW1 : DB := ⟨[1], [], [], []⟩

def dbW1r : DB :=
  ⟨[1], [⟨9, 0, 1, ProgramStatus.started, true, some 5, some 5⟩], [],
   [⟨0, some 1, some 0⟩]⟩

/-- Witness for C1: the single-active guarantee evaluated on the concrete
call `start_program 0 1 5 9` over an empty table. -/
theorem startProgram_single_active_witness :
    (dbW1r.user_programs.filter (UserProgram.activeFor 0)).length = 1 ∧
    (dbW1r.user_programs.filter (UserProgram.activeFor 0)).all
      (fun up => up.program_id == 1) = true :=
  startProgram_single_active 0 1 5 9 dbW1 dbW1r (by decide)

theorem start_date_startActivate (now : Nat) (x : UserProgram) :
    (startActivate now x).start_date =
      if x.start_date.isNone then some now else x.start_date := rfl

/-- After a successful `start_program`, the first `(uid, pid)` row exists
and its `start_date` is set. -/
theorem start_program_pair_row (uid pid now newId : Nat) (db dbp : DB)
    (h : start_program uid pid now newId db = some dbp) :
    ∃ u, dbp.user_programs.find? (UserProgram.forPair uid pid) = some u ∧
      u.start_date.isSome = true := by
  rcases start_program_user_programs uid pid now newId db dbp h with
    ⟨u, hfind, hup⟩ | ⟨hfind, hup⟩
  · refine ⟨startActivate now u, ?_, ?_⟩
    · rw [hup, find?_updateFirst _ _ (forPair_startActivate uid pid now), hfind]
      rfl
    · rw [start_date_startActivate]
      rcases hu : u.start_date with _ | d <;> simp [hu]
  · have hrow : UserProgram.forPair uid pid (startNewRow uid pid now newId) = true := by
      unfold UserProgram.forPair startNewRow
      simp
    refine ⟨startNewRow uid pid now newId, ?_, rfl⟩
    rw [hup, find?_append_none _ _ _ hfind, List.find?_cons_of_pos _ hrow]

/-- C3: starting the same program twice in a row succeeds into the same
end state: the second call leaves `start_date` unchanged and creates no
second enrollment row. -/
theorem startProgram_idempotent (uid pid t1 t2 n1 n2 : Nat) (db db1 db2 : DB)
    (h1 : start_program uid pid t1 n1 db = some db1)
    (h2 : start_program uid pid t2 n2 db1 = some db2) :
    db2.user_programs.length = db1.user_programs.length ∧
    (db2.user_programs.find? (UserProgram.forPair uid pid)).map (fun up => up.start_date) =
      (db1.user_programs.find? (UserProgram.forPair uid pid)).map
        (fun up => up.start_date) := by
  obtain ⟨u1, hfind1, hsd1⟩ := start_program_pair_row uid pid t1 n1 db db1 h1
  have hfind0 : (deactivateAll uid t2 db1.user_programs).find? (UserProgram.forPair uid pid) =
      some (deactivateRow uid t2 u1) := by
    rw [find?_forPair_deactivateAll, hfind1]
    rfl
  rcases start_program_user_programs uid pid t2 n2 db1 db2 h2 with
    ⟨u, hfind, hup⟩ | ⟨hfind, hup⟩
  · constructor
    · rw [hup, length_updateFirst]
      unfold deactivateAll
      rw [List.length_map]
    · rw [hup, find?_updateFirst _ _ (forPair_startActivate uid pid t2), hfind0, hfind1]
      simp only [Option.map_some']
      congr 1
      rw [start_date_startActivate, start_date_deactivateRow]
      rcases hu : u1.start_date with _ | d
      · rw [hu] at hsd1; cases hsd1
      · simp
  · rw [hfind0] at hfind
    cases hfind

def dbW3a : DB := ⟨[1], [], [], []⟩

def dbW3b : DB :=
  ⟨[1], [⟨9, 0, 1, ProgramStatus.started, true, some 5, some 5⟩], [],
   [⟨0, some 1, some 0⟩]⟩

def dbW3c : DB :=
  ⟨[1], [⟨9, 0, 1, ProgramStatus.started, true, some 5, some 11⟩], [],
   [⟨0, some 1, some 0⟩]⟩

/-- Witness for C3: the double-start sequence evaluated on concrete
states (`start_program 0 1` at times 5 then 11). -/
theorem startProgram_idempotent_witness :
    dbW3c.user_programs.length = dbW3b.user_programs.length ∧
    (dbW3c.user_programs.find? (UserProgram.forPair 0 1)).map (fun up => up.start_date) =
      (dbW3b.user_programs.find? (UserProgram.forPair 0 1)).map
        (fun up => up.start_date) :=
  startProgram_idempotent 0 1 5 11 9 12 dbW3a dbW3b dbW3c (by decide) (by decide)

/-- C4: toggling save on an enrollment whose status is `Started` or
`Completed` returns `is_saved = true`, leaves every workout log row
untouched, and changes only `status` (to `Saved`) and
`last_interaction_at` on the enrollment row — `is_active` and
`start_date` are preserved, as the returned row is the record update of
the old row in exactly those two fields. -/
theorem toggleSaved_preserves_progress (uid pid now newId : Nat) (db : DB) (u : UserProgram)
    (hfind : db.user_programs.find? (UserProgram.forPair uid pid) = some u)
    (hst : u.status = ProgramStatus.started ∨ u.status = ProgramStatus.completed) :
    (toggle_save_program uid pid now newId db).2 = true ∧
    (toggle_save_program uid pid now newId db).1.workout_logs = db.workout_logs ∧
    (toggle_save_program uid pid now newId db).1.user_programs.find?
        (UserProgram.forPair uid pid) =
      some { u with status := ProgramStatus.saved, last_interaction_at := some now } := by
  have hns : (u.status == ProgramStatus.saved) = false := by
    rcases hst with h | h <;> rw [h] <;> rfl
  unfold toggle_save_program
  rw [hfind]
  simp only [hns, Bool.false_eq_true, if_false]
  refine ⟨trivial, trivial, ?_⟩
  rw [find?_updateFirst _ _ (forPair_markSaved uid pid now), hfind]
  rfl

def dbW4 : DB :=
  ⟨[7], [⟨1, 0, 7, ProgramStatus.started, true, some 1, some 1⟩],
   [⟨2, 0, 7, 1, 5, some 30, none⟩], []⟩

/-- Witness for C4 on a concrete started enrollment with one logged
workout. -/
theorem toggleSaved_preserves_progress_witness :
    (toggle_save_program 0 7 2 9 dbW4).2 = true ∧
    (toggle_save_program 0 7 2 9 dbW4).1.workout_logs = dbW4.workout_logs ∧
    (toggle_save_program 0 7 2 9 dbW4).1.user_programs.find?
        (UserProgram.forPair 0 7) =
      some { (⟨1, 0, 7, ProgramStatus.started, true, some 1, some 1⟩ : UserProgram) with
               status := ProgramStatus.saved, last_interaction_at := some 2 } :=
  toggleSaved_preserves_progress 0 7 2 9 dbW4
    ⟨1, 0, 7, ProgramStatus.started, true, some 1, some 1⟩ (by decide) (Or.inl rfl)

/-- C10: the un-save branch of `toggle_save_program` (status `Saved`)
deletes only the enrollment row: the `workout_logs` table — and with it
the per-program completed count — is untouched, since workout log rows
carry no reference to the enrollment. -/
theorem toggleSaved_unsave_preserves_logs (uid pid now newId : Nat) (db : DB)
    (u : UserProgram)
    (hfind : db.user_programs.find? (UserProgram.forPair uid pid) = some u)
    (hsaved : u.status = ProgramStatus.saved) :
    (toggle_save_program uid pid now newId db).1.workout_logs = db.workout_logs ∧
    ((toggle_save_program uid pid now newId db).1.workout_logs.filter
        (WorkoutLog.forPair uid pid)).length =
      (db.workout_logs.filter (WorkoutLog.forPair uid pid)).length := by
  have hs : (u.status == ProgramStatus.saved) = true := by rw [hsaved]; rfl
  unfold toggle_save_program
  rw [hfind]
  simp only [hs, if_true]
  exact ⟨trivial, trivial⟩

def dbW10 : DB :=
  ⟨[7], [⟨1, 0, 7, ProgramStatus.saved, false, some 1, some 1⟩],
   [⟨2, 0, 7, 1, 5, some 30, none⟩, ⟨3, 1, 7, 1, 6, none, none⟩], []⟩

/-- Witness for C10 on a concrete saved enrollment with logged history. -/
theorem toggleSaved_unsave_preserves_logs_witness :
    (toggle_save_program 0 7 2 9 dbW10).1.workout_logs = dbW10.workout_logs ∧
    ((toggle_save_program 0 7 2 9 dbW10).1.workout_logs.filter
        (WorkoutLog.forPair 0 7)).length =
      (dbW10.workout_logs.filter (WorkoutLog.forPair 0 7)).length :=
  toggleSaved_unsave_preserves_logs 0 7 2 9 dbW10
    ⟨1, 0, 7, ProgramStatus.saved, false, some 1, some 1⟩ (by decide) rfl

/-- C2 amended: `log_workout` deduplicates against the server's current
calendar day, not the calendar day of the supplied `completed_at`: when
an entry dated today already exists for the pair, the call updates that
entry's `duration_minutes`/`notes` in place, creates no new row, and
returns the updated entry. -/
theorem logWorkout_same_day_updates (uid newId now : Nat) (ld : WorkoutLogCreate)
    (db : DB) (e : WorkoutLog)
    (hfind : db.workout_logs.find? (WorkoutLog.onDay uid ld.program_id (calendarDay now)) =
      some e) :
    (log_workout uid ld now newId db).1.workout_logs.length = db.workout_logs.length ∧
    (log_workout uid ld now newId db).1.workout_logs.find?
        (WorkoutLog.onDay uid ld.program_id (calendarDay now)) =
      some { e with duration_minutes := ld.duration_minutes, notes := ld.notes } ∧
    (log_workout uid ld now newId db).2 =
      { e with duration_minutes := ld.duration_minutes, notes := ld.notes } := by
  unfold log_workout
  simp only []
  rw [hfind]
  dsimp only
  refine ⟨length_updateFirst _ _ _, ?_, rfl⟩
  rw [find?_updateFirst (WorkoutLog.onDay uid ld.program_id (calendarDay now))
        (fun wl => { wl with duration_minutes := ld.duration_minutes, notes := ld.notes })
        (fun x => rfl) db.workout_logs,
      hfind]
  rfl

def dbW2 : DB := ⟨[7], [], [], []⟩

def ldW2 : WorkoutLogCreate := ⟨7, 1, none, none, some 5⟩

/-- Counterexample for C2 as stated: two `log_workout` calls whose
`completed_at` (timestamp 5, calendar day 0) falls on the same calendar
date, issued when the server clock is on day 2, insert two separate
entries for `(user 0, program 7, day 0)` instead of merging them. -/
theorem logWorkout_backdated_duplicates_cex :
    ((log_workout 0 ldW2 (2 * dayLen + 6) 2
        ((log_workout 0 ldW2 (2 * dayLen + 5) 1 dbW2).1)).1.workout_logs.filter
      (fun wl => WorkoutLog.forPair 0 7 wl &&
        (calendarDay wl.completed_at == 0))).length = 2 := by decide

/-- C7 amended: when the pair's enrollment has status `Saved`,
`log_workout` promotes it to `Started` (setting `is_active`,
`last_interaction_at`, and `start_date` if unset) only on the insert
path, i.e. when no entry dated with the server's current day exists; on
the same-day update path it only refreshes `last_interaction_at`,
leaving the status `Saved`. -/
theorem logWorkout_promotes_saved (uid newId now : Nat) (ld : WorkoutLogCreate)
    (db : DB) (u : UserProgram)
    (hfind : db.user_programs.find? (UserProgram.forPair uid ld.program_id) = some u)
    (hsaved : u.status = ProgramStatus.saved) :
    (db.workout_logs.find? (WorkoutLog.onDay uid ld.program_id (calendarDay now)) = none →
      (log_workout uid ld now newId db).1.user_programs.find?
          (UserProgram.forPair uid ld.program_id) =
        some { u with
                 last_interaction_at := some now
                 status := ProgramStatus.started
                 is_active := true
                 start_date := if u.start_date.isNone then some now
                               else u.start_date }) ∧
    (∀ e, db.workout_logs.find? (WorkoutLog.onDay uid ld.program_id (calendarDay now)) =
        some e →
      (log_workout uid ld now newId db).1.user_programs.find?
          (UserProgram.forPair uid ld.program_id) =
        some { u with last_interaction_at := some now }) := by
  have hpu : UserProgram.forPair uid ld.program_id u = true := List.find?_some hfind
  constructor
  · intro hnolog
    unfold log_workout
    simp only []
    rw [hnolog]
    simp only [hfind, Option.isSome_some, if_true]
    rw [find?_updateFirst _ _ (forPair_logPromote uid ld.program_id now) db.user_programs,
        hfind]
    have : logPromote now u =
        { u with
            last_interaction_at := some now
            status := ProgramStatus.started
            is_active := true
            start_date := if u.start_date.isNone then some now else u.start_date } := by
      unfold logPromote
      rw [hsaved]
      rfl
    simp only [Option.map_some']
    rw [this]
  · intro e hlog
    unfold log_workout
    simp only []
    rw [hlog]
    have hpres : ∀ x, UserProgram.forPair uid ld.program_id
        (if UserProgram.forPair uid ld.program_id x then touchInteraction now x else x) =
        UserProgram.forPair uid ld.program_id x := by
      intro x
      split <;> rfl
    rw [find?_map_eq _ _ hpres db.user_programs, hfind]
    simp only [Option.map_some']
    rw [if_pos hpu]
    rfl

def dbW7 : DB :=
  ⟨[7], [⟨1, 0, 7, ProgramStatus.saved, false, some 1, some 1⟩],
   [⟨2, 0, 7, 1, 5, none, none⟩], []⟩

/-- Counterexample for C7 as stated: a `log_workout` call on a pair whose
enrollment is `Saved`, issued on a day that already has a logged entry,
leaves the enrollment `Saved` and inactive instead of promoting it. -/
theorem logWorkout_saved_not_promoted_cex :
    ((log_workout 0 ⟨7, 2, none, none, none⟩ 9 3 dbW7).1.user_programs.map
      (fun up => (up.status, up.is_active))) = [(ProgramStatus.saved, false)] := by decide

def dbW2b : DB := ⟨[7], [], [⟨1, 0, 7, 1, 5, some 10, none⟩], []⟩

/-- Witness for the amended C2 on a concrete same-day second call. -/
theorem logWorkout_same_day_updates_witness :
    (log_workout 0 ⟨7, 2, some 40, none, none⟩ 9 2 dbW2b).1.workout_logs.length =
      dbW2b.workout_logs.length ∧
    (log_workout 0 ⟨7, 2, some 40, none, none⟩ 9 2 dbW2b).1.workout_logs.find?
        (WorkoutLog.onDay 0 7 (calendarDay 9)) =
      some { (⟨1, 0, 7, 1, 5, some 10, none⟩ : WorkoutLog) with
               duration_minutes := some 40, notes := none } ∧
    (log_workout 0 ⟨7, 2, some 40, none, none⟩ 9 2 dbW2b).2 =
      { (⟨1, 0, 7, 1, 5, some 10, none⟩ : WorkoutLog) with
          duration_minutes := some 40, notes := none } :=
  logWorkout_same_day_updates 0 2 9 ⟨7, 2, some 40, none, none⟩ dbW2b
    ⟨1, 0, 7, 1, 5, some 10, none⟩ (by decide)

def dbW7b : DB :=
  ⟨[7], [⟨1, 0, 7, ProgramStatus.saved, false, some 1, some 1⟩], [], []⟩

/-- Witness for the amended C7: the insert path promotes a concrete saved
enrollment. -/
theorem logWorkout_promotes_saved_witness :
    (log_workout 0 ⟨7, 2, none, none, none⟩ 9 3 dbW7b).1.user_programs.find?
        (UserProgram.forPair 0 7) =
      some ⟨1, 0, 7, ProgramStatus.started, true, some 1, some 9⟩ :=
  (logWorkout_promotes_saved 0 3 9 ⟨7, 2, none, none, none⟩ dbW7b
    ⟨1, 0, 7, ProgramStatus.saved, false, some 1, some 1⟩ (by decide) rfl).1 rfl

/-- The enrollment primary keys currently present in the table. -/
def enrollmentIds (db : DB) : List Nat := db.user_programs.map (fun up => up.id)

theorem map_id_of_preserving (f : UserProgram → UserProgram)
    (h : ∀ x, (f x).id = x.id) (l : List UserProgram) :
    (l.map f).map (fun up => up.id) = l.map (fun up => up.id) := by
  rw [List.map_map]
  exact List.map_congr_left fun x _ => h x

def dbC5a : DB := ⟨[7], [], [], []⟩

def dbC5b : DB :=
  ⟨[7], [⟨1, 0, 7, ProgramStatus.started, true, some 1, some 1⟩], [],
   [⟨0, some 7, some 0⟩]⟩

def dbC5c : DB :=
  ⟨[7], [⟨1, 0, 7, ProgramStatus.saved, true, some 1, some 2⟩], [],
   [⟨0, some 7, some 0⟩]⟩

/-- Counterexample for C5 as stated: an enrollment that HAS been started
(`start_program` at time 1 sets `status = Started`, `start_date = 1`) and
is then bookmarked (`toggle_save_program` at time 2 sets `status = Saved`
while keeping `start_date = 1`) is hard-deleted by the next
`toggle_save_program` call — the delete branch tests only
`status == Saved`, never whether the enrollment was started. -/
theorem toggleSaved_deletes_started_cex :
    start_program 0 7 1 1 dbC5a = some dbC5b ∧
    toggle_save_program 0 7 2 2 dbC5b = (dbC5c, true) ∧
    dbC5c.user_programs.map (fun up => up.start_date) = [some 1] ∧
    (toggle_save_program 0 7 3 3 dbC5c).1.user_programs = [] := by decide

/-- C5 amended: an enrollment row is never hard-deleted by
`start_program` or `log_workout`; `toggle_save_program` deletes at most
the first `(uid, pid)` row and only when that row's status is `Saved` at
the time of the call — regardless of whether it was ever started. -/
theorem enrollment_delete_only_unsave (uid pid now newId i : Nat) (ld : WorkoutLogCreate)
    (db dbp : DB) :
    (start_program uid pid now newId db = some dbp →
      i ∈ enrollmentIds db → i ∈ enrollmentIds dbp) ∧
    (i ∈ enrollmentIds db → i ∈ enrollmentIds (log_workout uid ld now newId db).1) ∧
    (i ∈ enrollmentIds db →
      i ∈ enrollmentIds (toggle_save_program uid pid now newId db).1 ∨
      ∃ u, db.user_programs.find? (UserProgram.forPair uid pid) = some u ∧
        u.status = ProgramStatus.saved ∧ i = u.id) := by
  refine ⟨?_, ?_, ?_⟩
  · intro h hi
    unfold enrollmentIds at hi ⊢
    rcases start_program_user_programs uid pid now newId db dbp h with
      ⟨u, _, hup⟩ | ⟨_, hup⟩
    · rw [hup, map_updateFirst _ _ _ (id_startActivate now)]
      unfold deactivateAll
      rw [map_id_of_preserving _ (id_deactivateRow uid now)]
      exact hi
    · rw [hup, List.map_append]
      apply List.mem_append_left
      unfold deactivateAll
      rw [map_id_of_preserving _ (id_deactivateRow uid now)]
      exact hi
  · intro hi
    unfold enrollmentIds at hi ⊢
    unfold log_workout
    simp only []
    rcases hlog : db.workout_logs.find?
        (WorkoutLog.onDay uid ld.program_id (calendarDay now)) with _ | e
    · dsimp only
      by_cases hex2 : (db.user_programs.find?
          (UserProgram.forPair uid ld.program_id)).isSome = true
      · rw [if_pos hex2, map_updateFirst _ _ _ (id_logPromote now)]
        exact hi
      · rw [if_neg hex2]
        exact hi
    · dsimp only
      have hidpres : ∀ x : UserProgram,
          (if UserProgram.forPair uid ld.program_id x then
            touchInteraction now x else x).id = x.id := by
        intro x
        split <;> rfl
      rw [map_id_of_preserving _ hidpres]
      exact hi
  · intro hi
    unfold toggle_save_program
    rcases hfind : db.user_programs.find? (UserProgram.forPair uid pid) with _ | u
    · left
      unfold enrollmentIds at hi ⊢
      rw [List.map_append]
      exact List.mem_append_left _ hi
    · by_cases hs : (u.status == ProgramStatus.saved) = true
      · simp only [hs, if_true]
        rcases mem_map_eraseFirst (UserProgram.forPair uid pid) (fun up => up.id)
            db.user_programs i hi with h1 | ⟨v, hv, hiv⟩
        · left
          exact h1
        · right
          have huv : u = v := Option.some_inj.mp (hfind.symm.trans hv)
          exact ⟨u, rfl, by simpa using hs, huv ▸ hiv⟩
      · left
        unfold enrollmentIds at hi ⊢
        simp only [hs, Bool.false_eq_true, if_false]
        rw [map_updateFirst _ _ _ (id_markSaved now)]
        exact hi

def dbW5 : DB :=
  ⟨[7], [⟨5, 0, 7, ProgramStatus.started, true, some 1, some 1⟩], [], []⟩

def dbW5r : DB :=
  ⟨[7], [⟨5, 0, 7, ProgramStatus.started, true, some 1, some 3⟩], [],
   [⟨0, some 7, some 0⟩]⟩

/-- Witness for the amended C5 on a concrete started enrollment (id 5):
it survives a restart, a workout log, and a save toggle. -/
theorem enrollment_delete_only_unsave_witness :
    5 ∈ enrollmentIds dbW5r ∧
    5 ∈ enrollmentIds (log_workout 0 ⟨7, 1, none, none, none⟩ 3 9 dbW5).1 ∧
    (5 ∈ enrollmentIds (toggle_save_program 0 8 3 9 dbW5).1 ∨
      ∃ u, dbW5.user_programs.find? (UserProgram.forPair 0 8) = some u ∧
        u.status = ProgramStatus.saved ∧ 5 = u.id) :=
  ⟨(enrollment_delete_only_unsave 0 7 3 9 5 ⟨7, 1, none, none, none⟩ dbW5 dbW5r).1
      (by decide) (by decide),
   (enrollment_delete_only_unsave 0 7 3 9 5 ⟨7, 1, none, none, none⟩ dbW5 dbW5r).2.1
      (by decide),
   (enrollment_delete_only_unsave 0 8 3 9 5 ⟨7, 1, none, none, none⟩ dbW5 dbW5r).2.2
      (by decide)⟩

/-- C6 amended: for a pair with no existing enrollment, `start_program`
(when the program exists) and `toggle_save_program` create the
enrollment row, but `log_workout` does not: it leaves the
`user_programs` table exactly as it was. -/
theorem enrollment_creation_paths (uid pid now newId : Nat) (ld : WorkoutLogCreate)
    (db dbp : DB)
    (hnone : db.user_programs.find? (UserProgram.forPair uid pid) = none)
    (hld : ld.program_id = pid) :
    (start_program uid pid now newId db = some dbp →
      (dbp.user_programs.find? (UserProgram.forPair uid pid)).isSome = true) ∧
    ((toggle_save_program uid pid now newId db).1.user_programs.find?
        (UserProgram.forPair uid pid)).isSome = true ∧
    (log_workout uid ld now newId db).1.user_programs = db.user_programs := by
  subst hld
  refine ⟨?_, ?_, ?_⟩
  · intro h
    obtain ⟨u, hf, _⟩ := start_program_pair_row uid ld.program_id now newId db dbp h
    rw [hf]
    rfl
  · unfold toggle_save_program
    simp only [hnone]
    rw [find?_append_none _ _ _ hnone, List.find?_cons_of_pos]
    · rfl
    · unfold UserProgram.forPair
      simp
  · unfold log_workout
    simp only []
    rcases hlog : db.workout_logs.find?
        (WorkoutLog.onDay uid ld.program_id (calendarDay now)) with _ | e
    · dsimp only
      have hcon : ¬ (db.user_programs.find?
          (UserProgram.forPair uid ld.program_id)).isSome = true := by
        rw [hnone]
        simp
      rw [if_neg hcon]
    · dsimp only
      have h2 : ∀ x ∈ db.user_programs,
          (if UserProgram.forPair uid ld.program_id x then
            touchInteraction now x else x) = id x := by
        intro x hx
        rw [if_neg]
        · rfl
        · intro hpx
          exact (List.find?_eq_none.mp hnone x hx) hpx
      rw [List.map_congr_left h2, List.map_id]

def dbW6 : DB := ⟨[7], [], [], []⟩

/-- Counterexample for C6 as stated: a `log_workout` call on a pair with
no enrollment (the ledger and the enrollment table are empty) inserts
the workout entry but creates no enrollment row. -/
theorem logWorkout_creates_no_enrollment_cex :
    (log_workout 0 ⟨7, 1, none, none, none⟩ 5 1 dbW6).1.user_programs = [] ∧
    (log_workout 0 ⟨7, 1, none, none, none⟩ 5 1 dbW6).1.workout_logs.length = 1 := by
  decide

/-- Witness for the amended C6 on the empty concrete state. -/
theorem enrollment_creation_paths_witness :
    ((toggle_save_program 0 7 5 1 dbW6).1.user_programs.find?
        (UserProgram.forPair 0 7)).isSome = true ∧
    (log_workout 0 ⟨7, 1, none, none, none⟩ 5 1 dbW6).1.user_programs =
      dbW6.user_programs :=
  ⟨(enrollment_creation_paths 0 7 5 1 ⟨7, 1, none, none, none⟩ dbW6 dbW6 rfl rfl).2.1,
   (enrollment_creation_paths 0 7 5 1 ⟨7, 1, none, none, none⟩ dbW6 dbW6 rfl rfl).2.2⟩

/-- C8: `get_schedule_status` returns `none` ("no active program", not an
error) when the user has no active enrollment; with an active enrollment
it returns `current_week = completedCount / 7 + 1` and
`completed_workouts = completedCount` where `completedCount` counts ALL
workout log rows of the `(user, active program)` pair,
`is_completed_today` true exactly when some entry of the pair has
`completed_at` on the server's current calendar day, and the
enrollment's `start_date`.  The handler issues only SELECTs, which is
why the embedding is a pure function of the state: it performs no
writes. -/
theorem getScheduleStatus_spec (uid now : Nat) (db : DB) (u : UserProgram) :
    (db.user_programs.find? (UserProgram.activeFor uid) = none →
      get_schedule_status uid now db = none) ∧
    (db.user_programs.find? (UserProgram.activeFor uid) = some u →
      get_schedule_status uid now db = some
        { current_week :=
            (db.workout_logs.filter (WorkoutLog.forPair uid u.program_id)).length / 7 + 1,
          current_day_of_week := isoWeekday (calendarDay now),
          completed_workouts :=
            (db.workout_logs.filter (WorkoutLog.forPair uid u.program_id)).length,
          is_completed_today :=
            db.workout_logs.any (fun wl => WorkoutLog.forPair uid u.program_id wl &&
              (calendarDay wl.completed_at == calendarDay now)),
          start_date := u.start_date }) := by
  constructor
  · intro h
    unfold get_schedule_status
    rw [h]
  · intro h
    unfold get_schedule_status
    rw [h]
    simp only []
    have hfun : WorkoutLog.onDay uid u.program_id (calendarDay now) =
        fun wl => WorkoutLog.forPair uid u.program_id wl &&
          (calendarDay wl.completed_at == calendarDay now) :=
      funext fun wl => onDay_eq_pair_and_day uid u.program_id (calendarDay now) wl
    rw [find?_isSome_eq_any, hfun]

def dbW8 : DB :=
  ⟨[7], [⟨1, 0, 7, ProgramStatus.started, true, some 1, some 1⟩],
   [⟨2, 0, 7, 1, 5, none, none⟩], []⟩

/-- Witness for C8 on a concrete active enrollment with one same-day
log. -/
theorem getScheduleStatus_spec_witness :
    get_schedule_status 0 9 dbW8 = some
      { current_week :=
          (dbW8.workout_logs.filter (WorkoutLog.forPair 0 7)).length / 7 + 1,
        current_day_of_week := isoWeekday (calendarDay 9),
        completed_workouts :=
          (dbW8.workout_logs.filter (WorkoutLog.forPair 0 7)).length,
        is_completed_today :=
          dbW8.workout_logs.any (fun wl => WorkoutLog.forPair 0 7 wl &&
            (calendarDay wl.completed_at == calendarDay 9)),
        start_date := some 1 } :=
  (getScheduleStatus_spec 0 9 dbW8
    ⟨1, 0, 7, ProgramStatus.started, true, some 1, some 1⟩).2 (by decide)

def dbW9 : DB := ⟨[7], [], [], []⟩

/-- C9 evidence: the pydantic schema `WorkoutLogCreate` places no bound
on `day_number`, so a call with `day_number = -1` is not rejected — the
handler reaches the store and inserts the row with the negative value. -/
theorem logWorkout_negative_day_stored :
    ((log_workout 0 ⟨7, -1, none, none, none⟩ 5 1 dbW9).1.workout_logs.map
      (fun wl => wl.day_number)) = [-1] := by decide
